import Mathlib

/-!
Verification of the index construction and verification module
(`fdroidserver/index.py`) of this repository.

The development shallowly embeds the module's data flow:

* Python dictionaries carrying JSON-like values are `List (String × JValue)`;
* the XML document built by `make_v0` is the inductive `XmlNode`;
* fatal conditions (`sys.exit(1)`, raised exceptions) are `Except` errors;
* file-system side effects (writing `index.xml` / `index-v1.json`, creating
  the current-version symlinks) are represented by the values returned on
  success: an `Except.error` result models a run that wrote nothing;
* external collaborators (network transport, the `jar`/`keytool` binaries,
  `os.path.exists`) enter as explicit parameters.

String manipulation is modelled on `List Char` (`String.data`) so that every
definition evaluates inside the kernel.
-/

namespace FDroidIndex

/-! ## JSON-like Python values and dictionaries -/

/-- A Python value as it appears in the app/apk dictionaries and in the
JSON output of `make_v1`.  `null` is Python's `None`. -/
inductive JValue where
  | str : String → JValue
  | int : Int → JValue
  | bool : Bool → JValue
  | null : JValue
  | arr : List JValue → JValue
  | obj : List (String × JValue) → JValue

/-- Python truthiness (`bool(v)`) for the values of `JValue`:
empty string, zero, `False`, `None`, empty list and empty dict are falsy. -/
def truthy : JValue → Bool
  | .str s => !s.data.isEmpty
  | .int n => n != 0
  | .bool b => b
  | .null => false
  | .arr l => !l.isEmpty
  | .obj l => !l.isEmpty

/-- Whether a value is Python's `None` (used for `is not None` checks). -/
def isNull : JValue → Bool
  | .null => true
  | _ => false

mutual
/-- Whether a JSON document contains, anywhere, a dictionary key mapped to a
falsy value. -/
def jsonHasFalsy : JValue → Bool
  | .obj l => objHasFalsy l
  | .arr l => arrHasFalsy l
  | _ => false

def objHasFalsy : List (String × JValue) → Bool
  | [] => false
  | (_, v) :: rest => !truthy v || jsonHasFalsy v || objHasFalsy rest

def arrHasFalsy : List JValue → Bool
  | [] => false
  | v :: rest => jsonHasFalsy v || arrHasFalsy rest
end

/-- A Python dictionary with string keys. -/
abbrev PyDict := List (String × JValue)

/-- Dictionary lookup.  A missing key yields `null`: the app dictionaries are
`metadata.App` objects whose attributes default to `None` when the field was
never set, so `app.Field` on a missing field reads as `None`. -/
def dictGet (d : PyDict) (k : String) : JValue :=
  match d.find? (fun p => p.1 = k) with
  | some p => p.2
  | none => .null

/-- Key-presence test (`k in d`). -/
def dictHasKey (d : PyDict) (k : String) : Bool :=
  d.any (fun p => p.1 = k)

/-- Dictionary assignment `d[k] = v`: replaces the value in place when the key
exists, otherwise appends (insertion order, as in Python dicts). -/
def dictSet (d : PyDict) (k : String) (v : JValue) : PyDict :=
  if d.any (fun p => p.1 = k) then
    d.map (fun p => if p.1 = k then (k, v) else p)
  else d ++ [(k, v)]

/-- The string content of a value; non-strings are coerced through their
obvious rendering (the catalog stores these fields as strings). -/
def jstr : JValue → String
  | .str s => s
  | .int n => toString n
  | .bool b => if b then "True" else "False"
  | .null => ""
  | .arr _ => ""
  | .obj _ => ""

/-- The string-list content of a value (category lists, anti-feature lists). -/
def jstrList : JValue → List String
  | .arr l => l.map jstr
  | _ => []

/-! ## String utilities (all on `List Char` so they evaluate)  -/

/-- Lexicographic order on character lists by code point, the order Python
uses to compare strings. -/
def charListLe : List Char → List Char → Bool
  | c :: cs, d :: ds =>
    if c.toNat < d.toNat then true
    else if d.toNat < c.toNat then false
    else charListLe cs ds
  | _ :: _, [] => false
  | [], _ => true

/-- Python's `s1 <= s2`. -/
def strLe (a b : String) : Bool := charListLe a.data b.data

/-- `sorted` on strings: stable insertion sort under `strLe`. -/
def sortStrings (l : List String) : List String :=
  List.insertionSort (fun a b => strLe a b = true) l

/-- Deduplication keeping first occurrences; models collecting into a Python
`set` before sorting (`sorted(set(...))` only depends on the underlying set). -/
def dedupStrings : List String → List String :=
  go []
where
  go (seen : List String) : List String → List String
    | [] => []
    | x :: xs => if seen.contains x then go seen xs else x :: go (x :: seen) xs

/-- `sep.join(parts)`. -/
def joinWith (sep : String) : List String → String
  | [] => ""
  | [x] => x
  | x :: xs => x ++ sep ++ joinWith sep xs

/-- `s.split(',')` on character lists. -/
def splitOnCharL (c : Char) : List Char → List (List Char)
  | [] => [[]]
  | x :: xs =>
    let rest := splitOnCharL c xs
    if x = c then [] :: rest
    else match rest with
      | [] => [[x]]
      | r :: rs => (x :: r) :: rs

/-- `s.split(c)` on strings. -/
def splitOnChar (c : Char) (s : String) : List String :=
  (splitOnCharL c s.data).map String.mk

/-- `s.startswith(p)`. -/
def pyStartsWith (s p : String) : Bool := p.data.isPrefixOf s.data

/-- `s[n:]`. -/
def pyDrop (s : String) (n : Nat) : String := String.mk (s.data.drop n)

/-- Python `str.upper()` restricted to ASCII letters, which is all the code
compares (hexadecimal fingerprints). -/
def pyCharUpper (c : Char) : Char :=
  if 97 ≤ c.toNat ∧ c.toNat ≤ 122 then Char.ofNat (c.toNat - 32) else c

/-- `s.upper()`. -/
def pyUpper (s : String) : String := String.mk (s.data.map pyCharUpper)

/-- `s.replace(' ', '')`: removes every space. -/
def stripSpaces (s : String) : String :=
  String.mk (s.data.filter (fun c => c ≠ ' '))

/-- Parse a decimal digit. -/
def digitVal (c : Char) : Option Nat :=
  if 48 ≤ c.toNat ∧ c.toNat ≤ 57 then some (c.toNat - 48) else none

/-- Python `int(s)` for non-negative decimal strings; the catalog's
`CurrentVersionCode` fields are decimal numerals (a non-numeric value would
raise `ValueError` in the source, which is outside the modelled behaviour;
the model returns 0 there, matching the `'0'` field default). -/
def pyInt (s : String) : Int :=
  go s.data 0
where
  go : List Char → Int → Int
    | [], acc => acc
    | c :: cs, acc =>
      match digitVal c with
      | some d => go cs (acc * 10 + (d : Int))
      | none => acc

/-- Render a non-negative integer in decimal; negatives get a minus sign.
Models Python `str(n)` / `'%d' % n`. -/
def intToStr (n : Int) : String := toString n

/-! ## Hexadecimal rendering and fingerprints -/

/-- The sixteen uppercase hexadecimal digits. -/
def hexDigitsU : List Char := "0123456789ABCDEF".data

/-- The sixteen lowercase hexadecimal digits. -/
def hexDigitsL : List Char := "0123456789abcdef".data

/-- Uppercase hexadecimal digit of `n % 16`. -/
def hexDigitU (n : Nat) : Char := hexDigitsU.getD (n % 16) '0'

/-- Lowercase hexadecimal digit of `n % 16`. -/
def hexDigitL (n : Nat) : Char := hexDigitsL.getD (n % 16) '0'

/-- `binascii.hexlify`: lowercase hex rendering of a byte string. -/
def hexlify (bytes : List Nat) : String :=
  String.mk (bytes.foldr (fun b acc => hexDigitL (b % 256 / 16) :: hexDigitL (b % 16) :: acc) [])

/-- The characters of `' '.join('%02X' % b for b in bytes)`: uppercase hex
byte pairs separated by single spaces. -/
def fpChars : List Nat → List Char
  | [] => []
  | [b] => [hexDigitU (b % 256 / 16), hexDigitU (b % 16)]
  | b :: rest => hexDigitU (b % 256 / 16) :: hexDigitU (b % 16) :: ' ' :: fpChars rest

/-- Modelled from the spec: `common.get_cert_fingerprint` is not under `src/`
(only `fdroidserver/index.py` is).  Per §4.4 the fingerprint computation is a
pure function of the certificate's encoded bytes, stable and normalized; it is
modelled as the space-grouped uppercase hexadecimal rendering of the bytes
(the SHA-256 digest step is an external hash primitive and is modelled as the
identity on the encoded bytes, which preserves being a pure function of them).
`index.py` strips the space grouping with `.replace(' ', '')`. -/
def get_cert_fingerprint (pubkey : List Nat) : String :=
  String.mk (fpChars pubkey)

/-- Modelled from the spec: `common.get_certificate` is not under `src/`.
It extracts the public key from a certificate file's bytes; the extraction is
modelled as the identity on the entry's bytes. -/
def get_certificate (certBytes : List Nat) : List Nat := certBytes

/-! ## URL and path helpers

These model the `urllib.parse` / `os.path` standard-library calls of
`index.py` on the absolute `scheme://host/path` URLs the module handles
(queries and fragments are cut off; percent-decoding is not modelled since
the code never produces escaped mirror or repository URLs). -/

/-- Skip everything up to and including the first `://`. -/
def afterSchemeSep : List Char → Option (List Char)
  | [] => none
  | ':' :: '/' :: '/' :: rest => some rest
  | _ :: rest => afterSchemeSep rest

/-- `urllib.parse.urlparse(url).path`: for `scheme://netloc/path…` the part
from the first `/` after the authority, truncated at `?` or `#`; a string
without `://` is all path (as `urlparse` treats scheme-less input). -/
def urlparsePath (url : String) : String :=
  match afterSchemeSep url.data with
  | some rest =>
    String.mk ((rest.dropWhile (fun c => c ≠ '/')).takeWhile (fun c => c ≠ '?' ∧ c ≠ '#'))
  | none => String.mk (url.data.takeWhile (fun c => c ≠ '?' ∧ c ≠ '#'))

/-- `p.rstrip('/')`. -/
def rstripSlash (p : String) : String :=
  String.mk ((p.data.reverse.dropWhile (fun c => c = '/')).reverse)

/-- `os.path.basename(p)`: the part after the last `/`. -/
def pyBasename (p : String) : String :=
  String.mk ((p.data.reverse.takeWhile (fun c => c ≠ '/')).reverse)

/-- Whether a string ends with `/` (`mirror.endswith('/')`). -/
def endsWithSlash (s : String) : Bool :=
  match s.data.getLast? with
  | some '/' => true
  | _ => false

/-- `urllib.parse.urljoin(base, seg)` in the only configuration `index.py`
uses it: `base` ends with `/` (the code appends one otherwise) and `seg` is a
single plain path segment (`os.path.basename` of a repository URL path, so it
contains no `/`, `?`, `#` or scheme separator).  Joining then appends the
segment; the empty segment resolves to the base itself. -/
def urljoinSeg (base seg : String) : String :=
  if seg.data.isEmpty then base else base ++ seg

/-- `os.path.join(repodir, name)` for a relative `name` (posix). -/
def pathJoin (a b : String) : String := a ++ "/" ++ b

/-! ## The catalog model -/

/-- One `<uses-permission>` entry as scanned from a package: a name and an
optional maximum-SDK qualifier (`UsesPermission` namedtuple). -/
structure Permission where
  name : String
  maxSdkVersion : Option Int

/-- One package build (an entry of the `apks` list).  Fields of type `Option`
model dictionary keys that may be absent (`'srcname' in apk` checks);
`added` carries the already-`strftime`-formatted date string, date formatting
being external to this module. -/
structure Apk where
  packageName : String
  versionCode : Int
  versionName : String
  apkName : String
  hash : String
  size : Int
  sig : String
  usesPermission : List Permission
  usesPermissionSdk23 : List Permission
  features : List String
  srcname : Option String := none
  minSdkVersion : Option Int := none
  targetSdkVersion : Option Int := none
  maxSdkVersion : Option Int := none
  obbMainFile : Option String := none
  obbMainFileSha256 : Option String := none
  obbPatchFile : Option String := none
  obbPatchFileSha256 : Option String := none
  added : Option String := none
  antiFeatures : Option (List String) := none
  nativecode : Option (List String) := none
  icon : Option String := none
  icons : Option JValue := none
  icons_src : Option JValue := none
  name : Option String := none

/-- An application record: the `metadata.App` dictionary. -/
abbrev AppDict := PyDict

/-- The process configuration (`common.config` / `common.options`) consumed by
`index.py`, plus the two ambient facts the module reads from outside
(`existingFiles` models `os.path.exists`, `now` the `datetime.utcnow()`
timestamp in epoch seconds). -/
structure Config where
  repoName : String
  repoIcon : String
  repoUrl : String
  repoDescription : String
  archiveName : String := ""
  archiveIcon : String := ""
  archiveUrl : String := ""
  archiveDescription : String := ""
  repoMaxage : Int := 0
  mirrors : List String := []
  servergitmirrors : List String := []
  nonstandardwebroot : Bool := false
  installListCfg : Option JValue := none
  uninstallListCfg : Option JValue := none
  makeCurrentVersionLink : Bool := false
  currentVersionNameSource : String := "Name"
  repoPubkey : List Nat := []
  metadataVersion : Int := 18
  existingFiles : List String := []
  now : Int := 0

/-! ## Index Assembler (`make`) pieces -/

/-- The repository descriptor `repodict` assembled at the top of `make`:
timestamp, schema version, optional max-age, then the name/icon/address/
description of the selected profile (archive or primary). -/
structure RepoDict where
  timestamp : Int
  version : Int
  maxage : Option Int
  name : String
  icon : String
  address : String
  description : String
  mirrors : List String

/-- The basename of the selected repository URL's path (`urlbasepath`). -/
def urlbasepath (cfg : Config) (archive : Bool) : String :=
  if archive then pyBasename (urlparsePath cfg.archiveUrl)
  else pyBasename (urlparsePath cfg.repoUrl)

/-- Whether one configured mirror fails the webroot check: unless
`nonstandardwebroot` is set, the basename of the mirror URL's path (with
trailing slashes stripped) must be the literal `fdroid`. -/
def mirrorCheckFails (cfg : Config) (mirror : String) : Bool :=
  !cfg.nonstandardwebroot && pyBasename (rstripSlash (urlparsePath mirror)) ≠ "fdroid"

/-- The normalized mirror-list entry for one configured mirror: the mirror
(given a trailing slash when it lacks one, "must end with / or urljoin strips
a whole path segment") joined with the repository URL's path basename. -/
def mirrorEntry (ubp mirror : String) : String :=
  if endsWithSlash mirror then urljoinSeg mirror ubp
  else urljoinSeg (mirror ++ "/") ubp

/-- `get_mirror_service_url`: resolve a git-hosting shorthand into a raw
content URL.  Splits the URL on `/`; github.com becomes a
`raw.githubusercontent.com` URL with `master/fdroid` appended, gitlab.com a
`user.gitlab.io/repo/fdroid` pages URL, and any other host yields `None`.
(The `git@host:path` rewrite handles the SSH form; a URL with fewer than five
`/`-segments would raise `IndexError` in the source and is outside the
modelled inputs.) -/
def get_mirror_service_url (url : String) : Option String :=
  let url := if pyStartsWith url "git@" then
      -- re.sub(r'^git@(.*):(.*)', r'https://\1/\2', url)
      let rest := pyDrop url 4
      match splitOnChar ':' rest with
      | [host, path] => "https://" ++ host ++ "/" ++ path
      | _ => url
    else url
  let segments := splitOnChar '/' url
  let seg4 := segments.getD 4 ""
  let seg4 := if seg4.data.reverse.take 4 = ['t', 'i', 'g', '.'] then
      String.mk (seg4.data.take (seg4.data.length - 4)) else seg4
  let hostname := segments.getD 2 ""
  let user := segments.getD 3 ""
  if hostname = "github.com" then
    some (joinWith "/" ((segments.take 2 ++ ["raw.githubusercontent.com"]
      ++ [user, seg4] ++ (segments.drop 5) ++ ["master", "fdroid"])))
  else if hostname = "gitlab.com" then
    some (joinWith "/" ["https:", "", user ++ ".gitlab.io", seg4, "fdroid"])
  else none

/-- The result of the mirror loop of `make` (lines 104-123): the failure flag
accumulated over every sorted mirror, and the normalized entries (entries are
appended even for failing mirrors; the batched `sys.exit(1)` after the loop
discards them), followed by the resolved git-service mirrors. -/
def mirrorLoop (cfg : Config) (ubp : String) : Bool × List String :=
  let checked := (sortStrings cfg.mirrors).map
    (fun m => (mirrorCheckFails cfg m, mirrorEntry ubp m))
  let gitMirrors := cfg.servergitmirrors.filterMap
    (fun m => (get_mirror_service_url m).map (fun u => u ++ "/"))
  (checked.any (·.1), checked.map (·.2) ++ gitMirrors)

/-- `repodict` for the selected profile, with the mirror list attached when
non-empty. -/
def makeRepoDict (cfg : Config) (archive : Bool) (mirrors : List String) : RepoDict :=
  { timestamp := cfg.now
    version := cfg.metadataVersion
    maxage := if cfg.repoMaxage ≠ 0 then some cfg.repoMaxage else none
    name := if archive then cfg.archiveName else cfg.repoName
    icon := if archive then pyBasename cfg.archiveIcon else pyBasename cfg.repoIcon
    address := if archive then cfg.archiveUrl else cfg.repoUrl
    description := if archive then cfg.archiveDescription else cfg.repoDescription
    mirrors := mirrors }

/-- The filtering loop of `make` (lines 125-138): keep, in `sortedids` order,
every app whose `Disabled` field is falsy and that has at least one package
build, rewriting its description through the external
`metadata.description_html` resolver (passed in as `descHtml`). -/
def appsWithPackages (descHtml : String → String)
    (catalog : List (String × AppDict)) (apks : List Apk) :
    List (String × AppDict) :=
  catalog.filterMap (fun p =>
    if truthy (dictGet p.2 "Disabled") then none
    else if apks.any (fun apk => apk.packageName = p.1) then
      some (p.1, dictSet p.2 "Description" (.str (descHtml (jstr (dictGet p.2 "Description")))))
    else none)

/-- One request list from the configuration (lines 140-151): a missing key is
the empty list, a single string becomes a one-element list, a list of strings
passes through, and anything else raises
`TypeError('only accepts strings, lists, and tuples')`. -/
def requestList : Option JValue → Except String (List String)
  | none => .ok []
  | some (.str s) => .ok [s]
  | some (.arr items) =>
    if items.all (fun v => match v with | .str _ => true | _ => false) then
      .ok (items.map jstr)
    else .error "only accepts strings, lists, and tuples"
  | some _ => .error "only accepts strings, lists, and tuples"

/-- `requestsdict`: the install and uninstall request lists. -/
def requestsDict (cfg : Config) : Except String (List String × List String) := do
  let install ← requestList cfg.installListCfg
  let uninstall ← requestList cfg.uninstallListCfg
  return (install, uninstall)

/-! ## Flat Index Builder (`make_v1`) -/

/-- Lowercase an ASCII capital. -/
def pyCharLower (c : Char) : Char :=
  if 65 ≤ c.toNat ∧ c.toNat ≤ 90 then Char.ofNat (c.toNat + 32) else c

/-- `k[:1].lower() + k[1:]`. -/
def lowerFirst (k : String) : String :=
  match k.data with
  | [] => ""
  | c :: cs => String.mk (pyCharLower c :: cs)

/-- `sorted(d.items())`: dictionary items sorted by key (keys are unique, so
the values never get compared). -/
def sortPairsByKey (l : PyDict) : PyDict :=
  List.insertionSort (fun p q => strLe p.1 q.1 = true) l

/-- The internal-only bookkeeping fields excluded from the flat format. -/
def v1ExcludedAppFields : List String :=
  ["builds", "comments", "metadatapath",
   "ArchivePolicy", "AutoUpdateMode", "MaintainerNotes",
   "Provides", "Repo", "RepoType", "RequiresRoot",
   "UpdateCheckData", "UpdateCheckIgnore", "UpdateCheckMode",
   "UpdateCheckName", "NoSourceSince", "VercodeOperation"]

/-- One flat-format application record (`make_v1` lines 172-198): iterate the
app dictionary in sorted key order, skip falsy values and the excluded
bookkeeping fields, apply the fixed renames (`id` → `packageName`,
`CurrentVersionCode` → `suggestedVersionCode`, `CurrentVersion` →
`suggestedVersionName`, `AutoName` → `name` only when no `Name` key exists,
everything else lower-camel-cased). -/
def v1AppStep (fields : AppDict) (d : PyDict) (p : String × JValue) : PyDict :=
  let k := p.1
  let v := p.2
  if !truthy v then d
  else if v1ExcludedAppFields.contains k then d
  else if k = "id" then dictSet d "packageName" v
  else if k = "CurrentVersionCode" then dictSet d "suggestedVersionCode" v
  else if k = "CurrentVersion" then dictSet d "suggestedVersionName" v
  else if k = "AutoName" then
    (if dictHasKey fields "Name" then d else dictSet d "name" v)
  else dictSet d (lowerFirst k) v

def makeV1AppRecord (fields : AppDict) : PyDict :=
  (sortPairsByKey fields).foldl (v1AppStep fields) []

/-- One flat-format package record (`make_v1` lines 209-216): iterate the
package dictionary in sorted key order, skip falsy values and the
display-only fields already present at the application level. -/
def v1PackageStep (d : PyDict) (p : String × JValue) : PyDict :=
  if !truthy p.2 then d
  else if (["icon", "icons", "icons_src", "name"] : List String).contains p.1 then d
  else dictSet d p.1 p.2

def makeV1PackageRecord (fields : PyDict) : PyDict :=
  (sortPairsByKey fields).foldl v1PackageStep []

/-- JSON value of a `UsesPermission` namedtuple (a two-tuple serializes as an
array; a missing max-SDK is `null`). -/
def permJValue (p : Permission) : JValue :=
  .arr [.str p.name, match p.maxSdkVersion with | some v => .int v | none => .null]

/-- Optional dictionary entry. -/
def optEntry (k : String) : Option JValue → PyDict
  | some v => [(k, v)]
  | none => []

/-- The package dictionary of one `apks` entry, in Python-sorted key order
(keys of absent optional fields are missing from the dictionary, so they are
listed only when present). -/
def apkItems (apk : Apk) : PyDict :=
  optEntry "added" (apk.added.map .str)
  ++ optEntry "antiFeatures" (apk.antiFeatures.map (fun l => .arr (l.map .str)))
  ++ [("apkName", .str apk.apkName),
      ("features", .arr (apk.features.map .str)),
      ("hash", .str apk.hash)]
  ++ optEntry "icon" (apk.icon.map .str)
  ++ optEntry "icons" apk.icons
  ++ optEntry "icons_src" apk.icons_src
  ++ optEntry "maxSdkVersion" (apk.maxSdkVersion.map .int)
  ++ optEntry "minSdkVersion" (apk.minSdkVersion.map .int)
  ++ optEntry "name" (apk.name.map .str)
  ++ optEntry "nativecode" (apk.nativecode.map (fun l => .arr (l.map .str)))
  ++ optEntry "obbMainFile" (apk.obbMainFile.map .str)
  ++ optEntry "obbMainFileSha256" (apk.obbMainFileSha256.map .str)
  ++ optEntry "obbPatchFile" (apk.obbPatchFile.map .str)
  ++ optEntry "obbPatchFileSha256" (apk.obbPatchFileSha256.map .str)
  ++ [("packageName", .str apk.packageName),
      ("sig", .str apk.sig),
      ("size", .int apk.size)]
  ++ optEntry "srcname" (apk.srcname.map .str)
  ++ optEntry "targetSdkVersion" (apk.targetSdkVersion.map .int)
  ++ [("uses-permission", .arr (apk.usesPermission.map permJValue)),
      ("uses-permission-sdk-23", .arr (apk.usesPermissionSdk23.map permJValue)),
      ("versionCode", .int apk.versionCode),
      ("versionName", .str apk.versionName)]

/-- Append a value to a JSON array. -/
def arrPush (a v : JValue) : JValue :=
  match a with
  | .arr l => .arr (l ++ [v])
  | x => x

/-- The `packages` section of the flat document (`make_v1` lines 200-216):
package records grouped under their owning application identifier, in order
of first appearance, each record filtered by `makeV1PackageRecord`. -/
def groupPackages (packages : List Apk) : List (String × JValue) :=
  packages.foldl (fun acc apk =>
    let record := JValue.obj (makeV1PackageRecord (apkItems apk))
    if acc.any (fun p => p.1 = apk.packageName) then
      acc.map (fun p => if p.1 = apk.packageName then (p.1, arrPush p.2 record) else p)
    else acc ++ [(apk.packageName, .arr [record])]) []

/-- The `repo` section of the flat document: the repository descriptor with
the timestamp encoded as epoch milliseconds (`_index_encoder_default`). -/
def repoDictJson (rd : RepoDict) : JValue :=
  .obj ([("timestamp", .int (rd.timestamp * 1000)),
         ("version", .int rd.version)]
    ++ (match rd.maxage with | some m => [("maxage", .int m)] | none => [])
    ++ [("name", .str rd.name),
        ("icon", .str rd.icon),
        ("address", .str rd.address),
        ("description", .str rd.description)]
    ++ (if rd.mirrors.isEmpty then [] else [("mirrors", .arr (rd.mirrors.map .str))]))

/-- `make_v1`: the flat document written to `index-v1.json` — top-level keys
`repo`, `requests`, `apps`, `packages`. -/
def make_v1 (apps : List (String × AppDict)) (packages : List Apk)
    (repodict : RepoDict) (requests : List String × List String) : JValue :=
  .obj [("repo", repoDictJson repodict),
        ("requests", .obj [("install", .arr (requests.1.map .str)),
                           ("uninstall", .arr (requests.2.map .str))]),
        ("apps", .arr (apps.map (fun p => .obj (makeV1AppRecord p.2)))),
        ("packages", .obj (groupPackages packages))]

/-! ## Legacy Index Builder (`make_v0`) -/

/-- A node of the `xml.dom.minidom` document. -/
inductive XmlNode where
  | elem (name : String) (attrs : List (String × String)) (children : List XmlNode)
  | text (s : String)
  | cdata (s : String)

/-- `addElement`: an element with a single text child. -/
def addElement (name value : String) : XmlNode := .elem name [] [.text value]

/-- `addElementNonEmpty`: the element, or nothing when the value is empty. -/
def addElementNonEmpty (name value : String) : List XmlNode :=
  if value.data.isEmpty then [] else [addElement name value]

/-- `addElementIfInApk` for string-valued optional keys. -/
def addElementOptStr (name : String) : Option String → List XmlNode
  | some v => [addElement name v]
  | none => []

/-- `addElementIfInApk` for integer-valued optional keys (`str(apk[key])`). -/
def addElementOptInt (name : String) : Option Int → List XmlNode
  | some v => [addElement name (intToStr v)]
  | none => []

/-- The fatal conditions of `make`/`make_v0` (each a `sys.exit(1)` or raised
`TypeError` in the source; the external jar/signing-subprocess failures of
lines 473-486 are outside the model). -/
inductive FatalError where
  | mirrorCheckFailed
  | badRequestList (msg : String)
  | duplicateVersions (name1 name2 : String)

/-- Descending version-code order on packages (the `reverse=True` sort key of
line 354). -/
def apkDescOrder (a b : Apk) : Prop := b.versionCode ≤ a.versionCode

instance : DecidableRel apkDescOrder := fun a b => Int.decLe b.versionCode a.versionCode

/-- `sorted(apklist, key=lambda apk: apk['versionCode'], reverse=True)`:
Python's stable sort into descending version-code order. -/
def sortApksDesc (l : List Apk) : List Apk := List.insertionSort apkDescOrder l

/-- The duplicate scan of lines 361-366: the first adjacent pair of the
(sorted) package list sharing a version code, with the two file names the
fatal message reports. -/
def findDuplicate : List Apk → Option (String × String)
  | a :: b :: rest =>
    if a.versionCode = b.versionCode then some (a.apkName, b.apkName)
    else findDuplicate (b :: rest)
  | _ => none

/-- Modelled from the spec: `common.get_file_extension` is not under `src/`.
Per §4.1 the binary-package file type is distinguished by the file name's
extension; modelled as the lowercased part after the last dot (empty when the
name has no dot). -/
def get_file_extension (fname : String) : String :=
  match splitOnCharL '.' fname.data with
  | [] => ""
  | [_] => ""
  | parts => String.mk ((parts.getLastD []).map pyCharLower)

/-- Name order on permissions (`sorted(apk['uses-permission'])` compares the
namedtuples componentwise; permission names are distinct, so the name decides). -/
def sortPerms (l : List Permission) : List Permission :=
  List.insertionSort (fun p q => strLe p.name q.name = true) l

/-- The legacy permission name: `android.permission.` (19 characters) is
stripped from the front. -/
def permLegacyName (p : Permission) : String :=
  if pyStartsWith p.name "android.permission." then pyDrop p.name 19 else p.name

/-- The `<uses-permission>`-style elements attached to a package node
(lines 420-431).  In the source, the `apkel.appendChild(permel)` call sits
inside the `if permission.maxSdkVersion is not None:` branch, so an element
reaches the document only when the permission carries a max-SDK qualifier;
the elements created for the other permissions are never attached. -/
def usesPermissionElems (tag : String) (perms : List Permission) : List XmlNode :=
  (sortPerms perms).filterMap (fun p =>
    match p.maxSdkVersion with
    | some v => some (.elem tag [("name", p.name), ("maxSdkVersion", intToStr v)] [])
    | none => none)

/-- One `<package>` node (lines 378-434).  The signing hash, permission data,
native-code and feature lists appear only for the `apk` file extension. -/
def packageXml (apk : Apk) : XmlNode :=
  .elem "package" []
    ([addElement "version" apk.versionName,
      addElement "versioncode" (intToStr apk.versionCode),
      addElement "apkname" apk.apkName]
    ++ addElementOptStr "srcname" apk.srcname
    ++ [.elem "hash" [("type", "sha256")] [.text apk.hash],
        addElement "size" (intToStr apk.size)]
    ++ addElementOptInt "sdkver" apk.minSdkVersion
    ++ addElementOptInt "targetSdkVersion" apk.targetSdkVersion
    ++ addElementOptInt "maxsdkver" apk.maxSdkVersion
    ++ addElementOptStr "obbMainFile" apk.obbMainFile
    ++ addElementOptStr "obbMainFileSha256" apk.obbMainFileSha256
    ++ addElementOptStr "obbPatchFile" apk.obbPatchFile
    ++ addElementOptStr "obbPatchFileSha256" apk.obbPatchFileSha256
    ++ (match apk.added with | some d => [addElement "added" d] | none => [])
    ++ (if get_file_extension apk.apkName = "apk" then
          [addElement "sig" apk.sig]
          ++ addElementNonEmpty "permissions"
              (joinWith "," (sortStrings (dedupStrings
                ((sortPerms apk.usesPermission).map permLegacyName))))
          ++ usesPermissionElems "uses-permission" apk.usesPermission
          ++ usesPermissionElems "uses-permission-sdk-23" apk.usesPermissionSdk23
          ++ (match apk.nativecode with
              | some l => [addElement "nativecode" (joinWith "," (sortStrings l))]
              | none => [])
          ++ addElementNonEmpty "features" (joinWith "," (sortStrings apk.features))
        else []))

/-- The running current-version scan of lines 368-376, over the
descending-sorted package list: the state is
(`current_version_code`, `current_version_file`); each step first raises the
running maximum, then records the package's file name whenever the running
maximum is still strictly below the application's declared current version
code. -/
def currentVersionFold (cvc : Int) : List Apk → Int × Option String → Int × Option String
  | [], st => st
  | apk :: rest, st =>
    let code := if st.1 < apk.versionCode then apk.versionCode else st.1
    let file := if code < cvc then some apk.apkName else st.2
    currentVersionFold cvc rest (code, file)

/-- The `current_version_file` selected by the scan (initial state `0, None`). -/
def currentVersionFile (cvc : Int) (l : List Apk) : Option String :=
  (currentVersionFold cvc l (0, none)).2

/-- A character the alias sanitizer removes: the byte class
`[ '"&%?+=/]` of line 440 (space, apostrophe, double quote, ampersand,
percent, question mark, plus, equals, slash), given here by code point. -/
def isUnsafeNameChar (c : Char) : Bool :=
  (([32, 39, 34, 38, 37, 63, 43, 61, 47] : List Nat).contains c.toNat)

/-- `re.sub(b'[ \x27"&%?+=/]', b'', name)`: strip the unsafe characters. -/
def sanitizeName (s : String) : String :=
  String.mk (s.data.filter (fun c => !isUnsafeNameChar c))

/-- The current-version alias side effect (lines 436-453) as the list of
(link name, target path) symlinks created: nothing unless a current-version
file was selected, the `make_current_version_link` option is on and this is
the primary (`repo`) directory; otherwise the sanitized alias plus one link
per co-located `.asc`/`.sig` detached signature that exists on disk. -/
def appAliases (cfg : Config) (repodir : String) (app : AppDict) :
    Option String → List (String × String)
  | none => []
  | some f =>
    if cfg.makeCurrentVersionLink && repodir = "repo" then
      let sanitized := sanitizeName (jstr (dictGet app cfg.currentVersionNameSource))
      let linkname := sanitized ++ ".apk"
      let target := pathJoin repodir f
      (linkname, target) ::
        (([".asc", ".sig"] : List String).filterMap (fun ext =>
          if cfg.existingFiles.contains (target ++ ext) then
            some (linkname ++ ext, target ++ ext)
          else none))
    else []

/-- The children of an `<application>` element that precede the package
nodes (lines 307-359), including the description fallback, the duplicated
primary category, the historically mis-named market-version fields and the
anti-feature merge from the highest-version-code package. -/
def appElementChildren (app : AppDict) (sortedApks : List Apk) : List XmlNode :=
  let categories := jstrList (dictGet app "Categories")
  let antiFeatures := jstrList (dictGet app "AntiFeatures")
    ++ (match sortedApks.head? with
        | some apk => match apk.antiFeatures with | some l => l | none => []
        | none => [])
  [addElement "id" (jstr (dictGet app "id"))]
  ++ (if truthy (dictGet app "added") then
        [addElement "added" (jstr (dictGet app "added"))] else [])
  ++ (if truthy (dictGet app "lastUpdated") then
        [addElement "lastupdated" (jstr (dictGet app "lastUpdated"))] else [])
  ++ [addElement "name" (jstr (dictGet app "Name")),
      addElement "summary" (jstr (dictGet app "Summary"))]
  ++ (if truthy (dictGet app "icon") then
        [addElement "icon" (jstr (dictGet app "icon"))] else [])
  ++ [addElement "desc"
        (if truthy (dictGet app "Description") then jstr (dictGet app "Description")
         else "<p>No description available</p>"),
      addElement "license" (jstr (dictGet app "License"))]
  ++ (if truthy (dictGet app "Categories") then
        [addElement "categories" (joinWith "," categories),
         addElement "category" (categories.headD "")] else [])
  ++ [addElement "web" (jstr (dictGet app "WebSite")),
      addElement "source" (jstr (dictGet app "SourceCode")),
      addElement "tracker" (jstr (dictGet app "IssueTracker"))]
  ++ addElementNonEmpty "changelog" (jstr (dictGet app "Changelog"))
  ++ addElementNonEmpty "author" (jstr (dictGet app "AuthorName"))
  ++ addElementNonEmpty "email" (jstr (dictGet app "AuthorEmail"))
  ++ addElementNonEmpty "donate" (jstr (dictGet app "Donate"))
  ++ addElementNonEmpty "bitcoin" (jstr (dictGet app "Bitcoin"))
  ++ addElementNonEmpty "litecoin" (jstr (dictGet app "Litecoin"))
  ++ addElementNonEmpty "flattr" (jstr (dictGet app "FlattrID"))
  ++ [addElement "marketversion" (jstr (dictGet app "CurrentVersion")),
      addElement "marketvercode" (jstr (dictGet app "CurrentVersionCode"))]
  ++ (if truthy (dictGet app "Provides") then
        addElementNonEmpty "provides"
          (joinWith "," (splitOnChar ',' (jstr (dictGet app "Provides"))))
      else [])
  ++ (if truthy (dictGet app "RequiresRoot") then
        [addElement "requirements" "root"] else [])
  ++ addElementNonEmpty "antifeatures" (joinWith "," antiFeatures)

/-- Per-application processing of `make_v0`'s main loop: sort the package
list descending, abort the whole run on an adjacent duplicate version code
(in the source the `sys.exit(1)` fires before `index.xml` is ever opened for
writing, so an error here means no document and no aliases exist), otherwise
emit the application node with its package children and compute the
current-version alias side effects. -/
def processApp (cfg : Config) (repodir : String) (app : AppDict)
    (apklist : List Apk) :
    Except FatalError (XmlNode × List (String × String)) :=
  let sortedApks := sortApksDesc apklist
  match findDuplicate sortedApks with
  | some d => .error (.duplicateVersions d.1 d.2)
  | none =>
    let cvc := pyInt (jstr (dictGet app "CurrentVersionCode"))
    let children := appElementChildren app sortedApks ++ sortedApks.map packageXml
    let aliases := appAliases cfg repodir app (currentVersionFile cvc sortedApks)
    .ok (.elem "application" [("id", jstr (dictGet app "id"))] children, aliases)

/-- The skip conditions of lines 291-301: an app is emitted by `make_v0` when
its `Disabled` attribute is `None` (note: `make` filtered by truthiness
instead) and its package list is non-empty; the kept package list is
returned. -/
def eligibleApks (apks : List Apk) (pid : String) (app : AppDict) :
    Option (List Apk) :=
  if !isNull (dictGet app "Disabled") then none
  else if (apks.filter (fun a => a.packageName = pid)).isEmpty then none
  else some (apks.filter (fun a => a.packageName = pid))

/-- The application loop of `make_v0` over the already-filtered app
dictionary: collects application nodes and alias side effects, aborting on
the first fatal error. -/
def processApps (cfg : Config) (repodir : String) (apks : List Apk) :
    List (String × AppDict) →
    Except FatalError (List XmlNode × List (String × String))
  | [] => .ok ([], [])
  | (pid, app) :: rest =>
    match eligibleApks apks pid app with
    | none => processApps cfg repodir apks rest
    | some apklist =>
      match processApp cfg repodir app apklist with
      | .error e => .error e
      | .ok pa =>
        match processApps cfg repodir apks rest with
        | .error e => .error e
        | .ok r => .ok (pa.1 :: r.1, pa.2 ++ r.2)

/-- What `make_v0` leaves behind on success: the document written to
`index.xml` and the current-version alias symlinks. -/
structure V0Output where
  doc : XmlNode
  aliases : List (String × String)

/-- The `<repo>` element (lines 264-280). -/
def repoElement (cfg : Config) (rd : RepoDict) : XmlNode :=
  .elem "repo"
    ([("name", rd.name)]
      ++ (match rd.maxage with | some m => [("maxage", intToStr m)] | none => [])
      ++ [("icon", pyBasename rd.icon),
          ("url", rd.address),
          ("version", intToStr rd.version),
          ("timestamp", intToStr rd.timestamp),
          ("pubkey", hexlify cfg.repoPubkey)])
    (addElement "description" rd.description :: rd.mirrors.map (addElement "mirror"))

/-- `make_v0`: the hierarchical document (`index.jar` aka `index.xml`).
The repository public key comes from `extract_pubkey`, modelled by the
`repo_pubkey` configuration bytes (the `keytool` keystore path is an external
subprocess).  Jar packing and signing (lines 463-491) are delegated to
external binaries and not modelled. -/
def make_v0 (cfg : Config) (apps : List (String × AppDict)) (apks : List Apk)
    (repodir : String) (repodict : RepoDict)
    (requests : List String × List String) : Except FatalError V0Output := do
  let installEls := requests.1.map (fun pn => XmlNode.elem "install" [("packageName", pn)] [])
  let uninstallEls := requests.2.map (fun pn => XmlNode.elem "uninstall" [("packageName", pn)] [])
  let (appEls, aliases) ← processApps cfg repodir apks apps
  return { doc := .elem "fdroid" []
             (repoElement cfg repodict :: installEls ++ uninstallEls ++ appEls)
           aliases := aliases }

/-! ## Index Assembler (`make`) -/

/-- Everything a successful `make` run writes: the normalized mirror list
embedded in both documents, the legacy document with its alias side effects,
and the flat document. -/
structure MakeOutput where
  mirrors : List String
  v0 : V0Output
  v1json : JValue

/-- `make`: the signing-key configuration check (lines 62-82, external
keystore state) precedes everything; then the repository descriptor and the
mirror list are computed — a failed webroot check is batched over all mirrors
and exits before any document is built — then the catalog is filtered to
enabled apps with packages, the request lists are read (a malformed one
raises `TypeError`), and only then are the two documents produced, `make_v0`
first.  An `Except.error` models a run that wrote no index file. -/
def make (cfg : Config) (catalog : List (String × AppDict)) (apks : List Apk)
    (repodir : String) (archive : Bool) (descHtml : String → String) :
    Except FatalError MakeOutput :=
  let ubp := urlbasepath cfg archive
  let m := mirrorLoop cfg ubp
  if m.1 then .error .mirrorCheckFailed
  else
    let repodict := makeRepoDict cfg archive m.2
    let awp := appsWithPackages descHtml catalog apks
    match requestsDict cfg with
    | .error msg => .error (.badRequestList msg)
    | .ok reqs => do
      let v0 ← make_v0 cfg awp apks repodir repodict reqs
      return { mirrors := m.2
               v0 := v0
               v1json := make_v1 awp apks repodict reqs }

/-- The application identifiers of the nodes the legacy builder emits: the
apps of the filtered dictionary that additionally pass `make_v0`'s own skip
conditions (lines 291-301). -/
def v0AppIds (awp : List (String × AppDict)) (apks : List Apk) : List String :=
  awp.filterMap (fun p =>
    (eligibleApks apks p.1 p.2).map (fun _ => jstr (dictGet p.2 "id")))

/-- The application identifiers of the records the flat builder emits: one
record per app of the filtered dictionary (lines 170-198). -/
def v1AppIds (awp : List (String × AppDict)) : List String :=
  awp.map (fun p => jstr (dictGet p.2 "id"))

/-! ## Trust Verifier (`download_repo_index` and friends) -/

/-- The verification failures (`VerificationException`), kept distinct from
transport outcomes: "no new content" is the successful `(.ok none)` result,
never an error. -/
inductive VerificationError where
  | noFingerprintInURL
  | invalidSignature
  | noSigner
  | ambiguousSigner
  | fingerprintMismatch

/-- A downloaded index archive: the zip entries (name, bytes) and the verdict
of the external `common.verify_apk_signature` jarsigner call on it. -/
structure Jar where
  entries : List (String × List Nat)
  sigValid : Bool

/-- Modelled from the spec: `common.CERT_PATH_REGEX` is not under `src/`.
Per §4.4/§9 it recognizes the embedded signing-certificate entries of the
archive; modelled as the `META-INF/` signature-block files. -/
def isCertPath (nm : String) : Bool :=
  pyStartsWith nm "META-INF/" &&
    ("ASR.".data.isPrefixOf nm.data.reverse
      || "ASD.".data.isPrefixOf nm.data.reverse
      || "CE.".data.isPrefixOf nm.data.reverse)

/-- The certificate entries of the archive, in `namelist()` order. -/
def certNames (jar : Jar) : List String :=
  (jar.entries.map (fun e => e.1)).filter isCertPath

/-- `jar.read(name)`. -/
def jarRead (jar : Jar) (nm : String) : List Nat :=
  match jar.entries.find? (fun e => e.1 = nm) with
  | some e => e.2
  | none => []

/-- `verify_jar_signature` (lines 614-621): raises when the external
signature check fails. -/
def verify_jar_signature (jar : Jar) : Except VerificationError Unit :=
  if jar.sigValid then .ok () else .error .invalidSignature

/-- `get_public_key_from_jar` (lines 624-643): exactly one certificate entry
is required — zero raises the no-signer failure, more than one the
ambiguous-signer failure — and the fingerprint of the extracted key is
normalized by stripping the space grouping. -/
def get_public_key_from_jar (jar : Jar) :
    Except VerificationError (List Nat × String) :=
  let certs := certNames jar
  if certs.length < 1 then .error .noSigner
  else if certs.length > 1 then .error .ambiguousSigner
  else
    let public_key := get_certificate (jarRead jar (certs.headD ""))
    .ok (public_key, stripSpaces (get_cert_fingerprint public_key))

/-- `urllib.parse.parse_qs` on a query string, restricted to the key lookup
the code performs: `&`-separated `key=value` pairs; a pair without `=` or
with an empty value is dropped (`keep_blank_values` is false), and
`query['fingerprint'][0]` takes the first occurrence.  Percent-decoding is
not modelled (fingerprints are plain hex). -/
def qsLookup (q k : String) : Option String :=
  ((splitOnChar '&' q).filterMap (fun part =>
    let key := part.data.takeWhile (fun c => c ≠ '=')
    match part.data.dropWhile (fun c => c ≠ '=') with
    | [] => none
    | _ :: v => if v.isEmpty then none else some (String.mk key, String.mk v))
  ).find? (fun p => p.1 = k) |>.map (fun p => p.2)

/-- The data `download_repo_index` adopts from a verified index: the loaded
JSON document with the signer's public key and fingerprint attached
(lines 604-609; the JSON payload itself is decoded by the external `json`
module and carried opaquely). -/
structure IndexResult where
  pubkeyHex : String
  fingerprint : String

/-- `download_repo_index` (lines 562-611).  Inputs: the query string of the
repository URL, the `verify_fingerprint` flag, and the transport outcome
(`none` models the not-modified ETag response).  The second component of the
result records whether `net.http_get` was reached: the missing-fingerprint
check fires before any download is attempted.  On a new download the JAR
signature is verified, the single signing certificate extracted, and — when a
fingerprint pin was supplied — the uppercased pin compared against the
computed fingerprint; any failure raises and no index data is returned. -/
def download_repo_index (query : String) (verify_fingerprint : Bool)
    (response : Option Jar) :
    Except VerificationError (Option IndexResult) × Bool :=
  if verify_fingerprint && (qsLookup query "fingerprint").isNone then
    (.error .noFingerprintInURL, false)
  else
    let fingerprint := if verify_fingerprint then qsLookup query "fingerprint" else none
    match response with
    | none => (.ok none, true)
    | some jar =>
      match verify_jar_signature jar with
      | .error e => (.error e, true)
      | .ok _ =>
        match get_public_key_from_jar jar with
        | .error e => (.error e, true)
        | .ok pk =>
          match fingerprint with
          | some pin =>
            if pyUpper pin ≠ pk.2 then (.error .fingerprintMismatch, true)
            else (.ok (some { pubkeyHex := hexlify pk.1, fingerprint := pk.2 }), true)
          | none => (.ok (some { pubkeyHex := hexlify pk.1, fingerprint := pk.2 }), true)

/-! ## Concrete inputs used by the witnesses and counterexamples -/

/-- A package build at version code 5, file `app-5.apk` (the spec's
current-version aliasing example). -/
def apkFive : Apk :=
  { packageName := "com.example.app"
    versionCode := 5
    versionName := "1.0"
    apkName := "app-5.apk"
    hash := "aa"
    size := 10
    sig := "ff"
    usesPermission := []
    usesPermissionSdk23 := []
    features := [] }

/-- A package build at version code 3, file `app-3.apk`. -/
def apkThree : Apk :=
  { apkFive with versionCode := 3, apkName := "app-3.apk" }

/-- The `com.example.app` application dictionary of the spec's aliasing
example: declared current version code 5, name `Example App`. -/
def exampleAppDict : AppDict :=
  [("id", .str "com.example.app"),
   ("Name", .str "Example App"),
   ("Summary", .str "An example"),
   ("Description", .str "<p>d</p>"),
   ("License", .str "MIT"),
   ("WebSite", .str ""),
   ("SourceCode", .str ""),
   ("IssueTracker", .str ""),
   ("CurrentVersion", .str "1.0"),
   ("CurrentVersionCode", .str "5"),
   ("Disabled", .null)]

/-- A configuration with current-version aliasing enabled. -/
def aliasCfg : Config :=
  { repoName := "repo"
    repoIcon := "icon.png"
    repoUrl := "https://example.org/fdroid/repo"
    repoDescription := "desc"
    makeCurrentVersionLink := true
    currentVersionNameSource := "Name"
    now := 1700000000 }

/-- A signed archive with no certificate entry. -/
def jarNoCert : Jar :=
  { entries := [("index-v1.json", [1, 2])], sigValid := true }

/-- A signed archive with two certificate entries. -/
def jarTwoCerts : Jar :=
  { entries := [("META-INF/A.RSA", [1]), ("META-INF/B.RSA", [2]),
                ("index-v1.json", [1, 2])],
    sigValid := true }

/-- A signed archive with exactly one certificate entry over the key bytes
`[171, 1]` (fingerprint `AB01`). -/
def jarOneCert : Jar :=
  { entries := [("META-INF/CERT.RSA", [171, 1]), ("index-v1.json", [5])],
    sigValid := true }

/-- The element children of a `<package>` node. -/
def packageChildren (apk : Apk) : List XmlNode :=
  match packageXml apk with
  | .elem _ _ cs => cs
  | _ => []

/-- How many element children of the given tag name a node list holds. -/
def countElemsNamed (nm : String) : List XmlNode → Nat
  | [] => 0
  | .elem n _ _ :: rest => (if n = nm then 1 else 0) + countElemsNamed nm rest
  | _ :: rest => countElemsNamed nm rest

/-- A binary package declaring one permission without a max-SDK qualifier. -/
def apkPermNoMax : Apk :=
  { apkFive with usesPermission := [{ name := "android.permission.CAMERA", maxSdkVersion := none }] }

/-- A binary package declaring two permissions, one with a max-SDK qualifier
and one without. -/
def apkPermMax : Apk :=
  { apkFive with usesPermission :=
      [{ name := "android.permission.CAMERA", maxSdkVersion := none },
       { name := "android.permission.SEND_SMS", maxSdkVersion := some 26 }] }

/-- The fields of a JSON object (empty for non-objects). -/
def objFields : JValue → PyDict
  | .obj l => l
  | _ => []

/-- The flat document a `make` run wrote, `null` when the run failed. -/
def makeV1Of : Except FatalError MakeOutput → JValue
  | .ok o => o.v1json
  | .error _ => .null

/-- Two package builds of one application sharing a version code, whose file
names are the two a duplicate-version error reports: they sit adjacent in the
descending-sorted package list of that application. -/
def conflictingDuplicateNames (apks : List Apk) (n1 n2 : String) : Prop :=
  ∃ pid l1 a1 a2 l2,
    sortApksDesc (apks.filter (fun x => x.packageName = pid)) = l1 ++ a1 :: a2 :: l2 ∧
    a1.versionCode = a2.versionCode ∧ a1.apkName = n1 ∧ a2.apkName = n2

/-- The run aborted with a duplicate-version fatal error naming two
conflicting file names (and hence produced no output). -/
def failsWithConflictingDuplicate {α : Type} (apks : List Apk) :
    Except FatalError α → Prop
  | .error (.duplicateVersions n1 n2) => conflictingDuplicateNames apks n1 n2
  | _ => False

/-- The three-build package list of the C4 test vector: version codes
10, 20, 20. -/
def dupApks : List Apk :=
  [{ apkFive with packageName := "com.dup", versionCode := 10, apkName := "a-10.apk" },
   { apkFive with packageName := "com.dup", versionCode := 20, apkName := "a-20a.apk" },
   { apkFive with packageName := "com.dup", versionCode := 20, apkName := "a-20b.apk" }]

/-- The application owning the duplicate builds. -/
def dupAppDict : AppDict :=
  [("id", .str "com.dup"), ("Description", .str "d"), ("CurrentVersionCode", .str "20")]

/-- A configuration with one well-formed mirror under an `fdroid` webroot. -/
def goodMirrorCfg : Config :=
  { aliasCfg with
    repoUrl := "https://example.org/fdroid"
    mirrors := ["https://example.org/fdroid/"] }

/-- The same configuration with a mirror outside an `fdroid` webroot. -/
def badMirrorCfg : Config :=
  { goodMirrorCfg with mirrors := ["https://example.org/other/"] }

/-! ## Theorems -/

/-- Helper: the descending insertion sort is pairwise descending. -/
theorem sortApksDesc_pairwise (l : List Apk) :
    (sortApksDesc l).Pairwise apkDescOrder := by
  haveI : IsTotal Apk apkDescOrder := ⟨fun a b => Int.le_total b.versionCode a.versionCode⟩
  haveI : IsTrans Apk apkDescOrder :=
    ⟨fun _ _ _ hab hbc => le_trans hbc hab⟩
  exact List.sorted_insertionSort apkDescOrder l

/-- C8: within every application node of the legacy document the package
nodes are emitted by mapping `packageXml` over `sortApksDesc apklist` (see
`processApp`), and that list is ordered by version code descending: every
package precedes all packages of lower or equal version code. -/
theorem c8_packages_sorted_desc (l : List Apk) :
    (sortApksDesc l).Pairwise (fun a b => b.versionCode ≤ a.versionCode) :=
  sortApksDesc_pairwise l

/-- C10: with fingerprint verification enabled and no `fingerprint` parameter
in the URL query, `download_repo_index` raises the verification failure (a
`VerificationError`, not a transport outcome) with the download stage never
reached, whatever the transport would have returned. -/
theorem c10_no_fingerprint_param_fails_before_download
    (query : String) (response : Option Jar)
    (h : qsLookup query "fingerprint" = none) :
    download_repo_index query true response = (.error .noFingerprintInURL, false) := by
  unfold download_repo_index
  simp [h]

/-- Witness for C10 at the concrete query `foo=bar`. -/
theorem c10_no_fingerprint_param_fails_before_download_witness :
    qsLookup "foo=bar" "fingerprint" = none ∧
    download_repo_index "foo=bar" true (some { entries := [], sigValid := true }) =
      (.error .noFingerprintInURL, false) :=
  ⟨by decide,
   c10_no_fingerprint_param_fails_before_download "foo=bar"
     (some { entries := [], sigValid := true }) (by decide)⟩

/-- C2: on a downloaded archive whose JAR signature checks out, verification
requires exactly one embedded signing certificate: zero certificates raise
the no-signer failure and two or more the ambiguous-signer failure, in both
cases whatever fingerprint pin was or was not supplied, and no index data is
returned (the error carries none). -/
theorem c2_exactly_one_signer_required
    (query : String) (verify : Bool) (jar : Jar)
    (hsig : jar.sigValid = true)
    (hpin : verify = true → (qsLookup query "fingerprint").isSome = true) :
    (certNames jar = [] →
      download_repo_index query verify (some jar) = (.error .noSigner, true)) ∧
    (1 < (certNames jar).length →
      download_repo_index query verify (some jar) = (.error .ambiguousSigner, true)) := by
  have hfirst : (verify && (qsLookup query "fingerprint").isNone) = false := by
    cases verify with
    | false => simp
    | true =>
      simp only [Bool.true_and]
      have := hpin rfl
      simp [Option.isNone_iff_eq_none]
      exact Option.isSome_iff_exists.mp this |>.elim (fun a ha => by simp [ha])
  constructor
  · intro hzero
    unfold download_repo_index
    rw [hfirst]
    simp only [Bool.false_eq_true, if_false]
    unfold verify_jar_signature get_public_key_from_jar
    rw [hsig, hzero]
    simp
  · intro hmany
    unfold download_repo_index
    rw [hfirst]
    simp only [Bool.false_eq_true, if_false]
    unfold verify_jar_signature get_public_key_from_jar
    rw [hsig]
    have h1 : ¬ (certNames jar).length < 1 := by omega
    simp [h1, hmany]

/-- Witness for C2: the no-signer case with a pin supplied and the
ambiguous-signer case without one. -/
theorem c2_exactly_one_signer_required_witness :
    (certNames jarNoCert = [] ∧
      download_repo_index "fingerprint=AA" true (some jarNoCert) =
        (.error .noSigner, true)) ∧
    (1 < (certNames jarTwoCerts).length ∧
      download_repo_index "x=1" false (some jarTwoCerts) =
        (.error .ambiguousSigner, true)) :=
  ⟨⟨by decide,
    (c2_exactly_one_signer_required "fingerprint=AA" true jarNoCert rfl
      (fun _ => by decide)).1 (by decide)⟩,
   ⟨by decide,
    (c2_exactly_one_signer_required "x=1" false jarTwoCerts rfl
      (fun h => by cases h)).2 (by decide)⟩⟩

/-- Helper: appending preserves the underlying character lists. -/
theorem str_data_append (a b : String) : (a ++ b).data = a.data ++ b.data := by
  cases a; cases b; rfl

/-- Helper: every character the fingerprint renderer produces is a space, a
decimal digit or an uppercase `A`-`F`. -/
theorem fpChars_chars (bytes : List Nat) :
    ∀ c ∈ fpChars bytes,
      c = ' ' ∨ (48 ≤ c.toNat ∧ c.toNat ≤ 57) ∨ (65 ≤ c.toNat ∧ c.toNat ≤ 70) := by
  have hdig : ∀ n : Nat, (48 ≤ (hexDigitU n).toNat ∧ (hexDigitU n).toNat ≤ 57) ∨
      (65 ≤ (hexDigitU n).toNat ∧ (hexDigitU n).toNat ≤ 70) := by
    intro n
    have h16 : n % 16 < 16 := Nat.mod_lt _ (by omega)
    unfold hexDigitU
    interval_cases h : n % 16 <;> decide
  induction bytes with
  | nil => intro c hc; cases hc
  | cons b rest ih =>
    cases rest with
    | nil =>
      intro c hc
      simp only [fpChars, List.mem_cons, List.not_mem_nil, or_false] at hc
      rcases hc with h | h
      · subst h; exact Or.inr (hdig _)
      · subst h; exact Or.inr (hdig _)
    | cons b2 rest2 =>
      intro c hc
      simp only [fpChars, List.mem_cons] at hc
      rcases hc with h | h | h | h
      · subst h; exact Or.inr (hdig _)
      · subst h; exact Or.inr (hdig _)
      · subst h; exact Or.inl rfl
      · exact ih c h

/-- Helper: `upper()` leaves spaces, digits and uppercase hex letters alone. -/
theorem pyCharUpper_fix (c : Char)
    (h : c = ' ' ∨ (48 ≤ c.toNat ∧ c.toNat ≤ 57) ∨ (65 ≤ c.toNat ∧ c.toNat ≤ 70)) :
    pyCharUpper c = c := by
  unfold pyCharUpper
  rcases h with h | h | h
  · subst h; decide
  · rw [if_neg]; omega
  · rw [if_neg]; omega

/-- Helper: the normalized fingerprint is already uppercase, so `upper()`
fixes it. -/
theorem pyUpper_fingerprint_fix (pk : List Nat) :
    pyUpper (stripSpaces (get_cert_fingerprint pk)) =
      stripSpaces (get_cert_fingerprint pk) := by
  unfold pyUpper stripSpaces get_cert_fingerprint
  simp only
  congr 1
  have : ∀ c ∈ (fpChars pk).filter (fun c => decide (c ≠ ' ')),
      pyCharUpper c = c := by
    intro c hc
    exact pyCharUpper_fix c (fpChars_chars pk c (List.mem_of_mem_filter hc))
  calc ((fpChars pk).filter (fun c => decide (c ≠ ' '))).map pyCharUpper
      = ((fpChars pk).filter (fun c => decide (c ≠ ' '))).map id :=
        List.map_congr_left this
    _ = (fpChars pk).filter (fun c => decide (c ≠ ' ')) := List.map_id _

/-- Helper: the normalized fingerprint contains no space. -/
theorem fingerprint_no_space (pk : List Nat) :
    ∀ ch ∈ (stripSpaces (get_cert_fingerprint pk)).data, ch ≠ ' ' := by
  unfold stripSpaces
  intro ch hch
  simp only at hch
  have := List.of_mem_filter hch
  simpa using this

/-- C3: with a pin supplied and exactly one embedded certificate (and the
JAR signature valid), verification succeeds — returning the index data with
the signer's key and fingerprint attached — if and only if the pin matches
the computed fingerprint case-insensitively; on a mismatch the
fingerprint-mismatch trust violation is raised and no data is adopted.  The
computed fingerprint is `stripSpaces (get_cert_fingerprint …)` of the
certificate's encoded bytes — a pure function of them — and contains no
embedded whitespace. -/
theorem c3_pin_match_case_insensitive
    (query pin : String) (jar : Jar) (c : String)
    (hsig : jar.sigValid = true)
    (hone : certNames jar = [c])
    (hpin : qsLookup query "fingerprint" = some pin) :
    (download_repo_index query true (some jar) =
        (.ok (some { pubkeyHex := hexlify (get_certificate (jarRead jar c)),
                     fingerprint := stripSpaces (get_cert_fingerprint (get_certificate (jarRead jar c))) }),
         true)
      ↔ pyUpper pin = pyUpper (stripSpaces (get_cert_fingerprint (get_certificate (jarRead jar c))))) ∧
    (pyUpper pin ≠ pyUpper (stripSpaces (get_cert_fingerprint (get_certificate (jarRead jar c)))) →
      download_repo_index query true (some jar) = (.error .fingerprintMismatch, true)) ∧
    (∀ ch ∈ (stripSpaces (get_cert_fingerprint (get_certificate (jarRead jar c)))).data, ch ≠ ' ') := by
  have hfix := pyUpper_fingerprint_fix (get_certificate (jarRead jar c))
  have hrun : download_repo_index query true (some jar) =
      (if pyUpper pin ≠ stripSpaces (get_cert_fingerprint (get_certificate (jarRead jar c))) then
        (.error .fingerprintMismatch, true)
      else
        (.ok (some { pubkeyHex := hexlify (get_certificate (jarRead jar c)),
                     fingerprint := stripSpaces (get_cert_fingerprint (get_certificate (jarRead jar c))) }),
         true)) := by
    unfold download_repo_index
    have hfirst : (true && (qsLookup query "fingerprint").isNone) = false := by
      simp [hpin]
    rw [hfirst]
    simp only [Bool.false_eq_true, if_false]
    unfold verify_jar_signature get_public_key_from_jar
    rw [hsig, hpin, hone]
    simp
  constructor
  · rw [hrun]
    by_cases hmatch : pyUpper pin = stripSpaces (get_cert_fingerprint (get_certificate (jarRead jar c)))
    · rw [if_neg (by simpa using hmatch)]
      simp [hmatch, hfix]
    · rw [if_pos (by simpa using hmatch)]
      constructor
      · intro h; cases h
      · intro h; rw [hfix] at h; exact absurd h hmatch
  constructor
  · intro hne
    rw [hfix] at hne
    rw [hrun, if_pos (by simpa using hne)]
  · exact fingerprint_no_space _

/-- Witness for C3: pin `ab01` matches fingerprint `AB01` case-insensitively
and the fetch succeeds with the signer's data attached. -/
theorem c3_pin_match_case_insensitive_witness :
    certNames jarOneCert = ["META-INF/CERT.RSA"] ∧
    download_repo_index "fingerprint=ab01" true (some jarOneCert) =
      (.ok (some { pubkeyHex := "ab01", fingerprint := "AB01" }), true) := by
  refine ⟨by decide, ?_⟩
  have h := (c3_pin_match_case_insensitive "fingerprint=ab01" "ab01" jarOneCert
    "META-INF/CERT.RSA" rfl (by decide) (by decide)).1
  have heq := h.mpr (by decide)
  have e1 : hexlify (get_certificate (jarRead jarOneCert "META-INF/CERT.RSA")) = "ab01" := by decide
  have e2 : stripSpaces (get_cert_fingerprint (get_certificate (jarRead jarOneCert "META-INF/CERT.RSA"))) = "AB01" := by decide
  rw [e1, e2] at heq
  exact heq

/-- C7 (code bug): the claim promises one `uses-permission` entry per
declared permission, but the source attaches the created element only inside
the `if permission.maxSdkVersion is not None:` branch (lines 423-425), so a
permission without a max-SDK qualifier never reaches the package node: a
package with one such permission gets zero `uses-permission` children, and
with two permissions (one qualified) only one child — while the legacy
`permissions` summary element (which the same loop feeds) still lists every
declared permission, showing the intended behaviour.  The signing hash is
emitted as claimed. -/
theorem c7_uses_permission_entries_dropped :
    apkPermNoMax.usesPermission.length = 1 ∧
    countElemsNamed "uses-permission" (packageChildren apkPermNoMax) = 0 ∧
    countElemsNamed "permissions" (packageChildren apkPermNoMax) = 1 ∧
    apkPermMax.usesPermission.length = 2 ∧
    countElemsNamed "uses-permission" (packageChildren apkPermMax) = 1 ∧
    countElemsNamed "sig" (packageChildren apkPermMax) = 1 := by
  decide

/-- C5 counterexample: a run of `make` over a configuration without
`install_list`/`uninstall_list` writes a flat document whose `requests`
section maps `install` to the empty list — a key mapped to a falsy value —
so the claim's "no key anywhere in the output" is false (the per-record
sparseness it continues with does hold, see the amended theorem). -/
theorem c5_counterexample :
    truthy (dictGet (objFields (dictGet
        (objFields (makeV1Of (make aliasCfg [] [] "repo" false (fun s => s))))
        "requests")) "install") = false ∧
    jsonHasFalsy (makeV1Of (make aliasCfg [] [] "repo" false (fun s => s))) = true := by
  decide

/-- Helper: `d[k] = v` keeps every stored value truthy when `v` is. -/
theorem dictSet_truthy (d : PyDict) (k : String) (v : JValue)
    (hd : ∀ p ∈ d, truthy p.2 = true) (hv : truthy v = true) :
    ∀ p ∈ dictSet d k v, truthy p.2 = true := by
  unfold dictSet
  split
  · intro p hp
    rcases List.mem_map.mp hp with ⟨q, hq, hEq⟩
    by_cases hk : q.1 = k
    · rw [if_pos hk] at hEq
      rw [← hEq]
      exact hv
    · rw [if_neg hk] at hEq
      rw [← hEq]
      exact hd q hq
  · intro p hp
    rcases List.mem_append.mp hp with h | h
    · exact hd p h
    · rw [List.mem_singleton.mp h]
      exact hv

/-- Helper: a fold that only ever inserts truthy values keeps every stored
value truthy. -/
theorem foldl_truthy {α : Type} (step : PyDict → α → PyDict)
    (hstep : ∀ d x, (∀ p ∈ d, truthy p.2 = true) → ∀ p ∈ step d x, truthy p.2 = true) :
    ∀ (items : List α) (d : PyDict), (∀ p ∈ d, truthy p.2 = true) →
      ∀ p ∈ items.foldl step d, truthy p.2 = true := by
  intro items
  induction items with
  | nil => intro d hd; simpa using hd
  | cons x rest ih =>
    intro d hd
    simp only [List.foldl_cons]
    exact ih _ (hstep d x hd)

/-- Helper: one application-record step preserves truthiness. -/
theorem v1AppStep_truthy (fields : AppDict) (d : PyDict) (x : String × JValue)
    (hd : ∀ p ∈ d, truthy p.2 = true) :
    ∀ p ∈ v1AppStep fields d x, truthy p.2 = true := by
  unfold v1AppStep
  dsimp only
  split_ifs with h1 h2 h3 h4 h5 h6 h7
  all_goals
    first
    | exact hd
    | exact dictSet_truthy _ _ _ hd (by revert h1; cases truthy x.2 <;> simp)

/-- Helper: one package-record step preserves truthiness. -/
theorem v1PackageStep_truthy (d : PyDict) (x : String × JValue)
    (hd : ∀ p ∈ d, truthy p.2 = true) :
    ∀ p ∈ v1PackageStep d x, truthy p.2 = true := by
  unfold v1PackageStep
  split_ifs with h1 h2
  · exact hd
  · exact hd
  · exact dictSet_truthy _ _ _ hd (by revert h1; cases truthy x.2 <;> simp)

/-- C5 amended: within every application record and every package record of
the flat document, every key maps to a truthy value — falsy fields are
omitted entirely (`if not v: continue`).  The blanket "no key anywhere in the
output" fails only for the top-level `requests` (and config-supplied `repo`)
sections, which may carry empty lists, see the counterexample. -/
theorem c5_amended_records_sparse_on_empty (fields pkg : PyDict) :
    (∀ p ∈ makeV1AppRecord fields, truthy p.2 = true) ∧
    (∀ p ∈ makeV1PackageRecord pkg, truthy p.2 = true) := by
  constructor
  · unfold makeV1AppRecord
    exact foldl_truthy (v1AppStep fields) (v1AppStep_truthy fields) _ []
      (by intro p hp; cases hp)
  · unfold makeV1PackageRecord
    exact foldl_truthy v1PackageStep v1PackageStep_truthy _ []
      (by intro p hp; cases hp)

/-- Witness for C5 amended: the records built from one concrete app and one
concrete package dictionary carry only truthy values. -/
theorem c5_amended_records_sparse_on_empty_witness :
    truthy ((makeV1AppRecord exampleAppDict).headD ("", .null)).2 = true ∧
    truthy ((makeV1PackageRecord (apkItems apkFive)).headD ("", .null)).2 = true := by
  have h := c5_amended_records_sparse_on_empty exampleAppDict (apkItems apkFive)
  have e1 : makeV1AppRecord exampleAppDict =
      [("suggestedVersionName", .str "1.0"), ("suggestedVersionCode", .str "5"),
       ("description", .str "<p>d</p>"), ("license", .str "MIT"),
       ("name", .str "Example App"), ("summary", .str "An example"),
       ("packageName", .str "com.example.app")] := by rfl
  have e2 : makeV1PackageRecord (apkItems apkFive) =
      [("apkName", .str "app-5.apk"), ("hash", .str "aa"),
       ("packageName", .str "com.example.app"), ("sig", .str "ff"),
       ("size", .int 10), ("versionCode", .int 5), ("versionName", .str "1.0")] := by rfl
  constructor
  · apply h.1
    rw [e1]
    simp only [List.headD_cons]
    exact List.mem_cons_self _ _
  · apply h.2
    rw [e2]
    simp only [List.headD_cons]
    exact List.mem_cons_self _ _

/-- Helper: rewriting the value stored under one key leaves lookups of other
keys alone (the key-replacing map step). -/
theorem find?_mapSet (d : PyDict) (k k' : String) (v : JValue) (h : k' ≠ k) :
    (d.map (fun p => if p.1 = k then (k, v) else p)).find? (fun p => p.1 = k') =
      d.find? (fun p => p.1 = k') := by
  induction d with
  | nil => rfl
  | cons q rest ih =>
    by_cases hqk : q.1 = k
    · have h1 : (if q.1 = k then (k, v) else q) = (k, v) := if_pos hqk
      simp only [List.map_cons, h1, List.find?_cons]
      have hk' : (decide ((k, v).1 = k')) = false := by
        simp only [decide_eq_false_iff_not]
        intro hc
        exact h hc.symm
      have hq' : (decide (q.1 = k')) = false := by
        simp only [decide_eq_false_iff_not]
        intro hc
        exact h (hc.symm.trans hqk)
      rw [hk', hq', ih]
    · have h1 : (if q.1 = k then (k, v) else q) = q := if_neg hqk
      simp only [List.map_cons, h1, List.find?_cons]
      cases hq' : decide (q.1 = k') with
      | true => rfl
      | false => rw [ih]

/-- Helper: appending a differently-keyed entry leaves lookups alone. -/
theorem find?_appendKey (d : PyDict) (k k' : String) (v : JValue) (h : k' ≠ k) :
    (d ++ [(k, v)]).find? (fun p => p.1 = k') = d.find? (fun p => p.1 = k') := by
  induction d with
  | nil =>
    simp only [List.nil_append, List.find?_cons, List.find?_nil]
    have : (decide ((k, v).1 = k')) = false := by
      simp only [decide_eq_false_iff_not]
      intro hc
      exact h hc.symm
    rw [this]
  | cons q rest ih =>
    simp only [List.cons_append, List.find?_cons]
    cases hq : decide (q.1 = k') with
    | true => rfl
    | false => rw [ih]

/-- Helper: `d[k] = v` does not change `d[k']` for `k' ≠ k`. -/
theorem dictGet_dictSet_ne (d : PyDict) (k k' : String) (v : JValue) (h : k' ≠ k) :
    dictGet (dictSet d k v) k' = dictGet d k' := by
  unfold dictGet
  have hfind : (dictSet d k v).find? (fun p => p.1 = k') = d.find? (fun p => p.1 = k') := by
    unfold dictSet
    split
    · exact find?_mapSet d k k' v h
    · exact find?_appendKey d k k' v h
  rw [hfind]

/-- Helper: unpacking membership in the filtered app dictionary built by
`make`: the member comes from a catalog entry with a falsy `Disabled` field
and at least one matching package, with only its `Description` rewritten. -/
theorem mem_appsWithPackages (dh : String → String)
    (catalog : List (String × AppDict)) (apks : List Apk)
    (p : String × AppDict) (hp : p ∈ appsWithPackages dh catalog apks) :
    ∃ q ∈ catalog,
      truthy (dictGet q.2 "Disabled") = false ∧
      apks.any (fun apk => apk.packageName = q.1) = true ∧
      p = (q.1, dictSet q.2 "Description" (.str (dh (jstr (dictGet q.2 "Description"))))) := by
  unfold appsWithPackages at hp
  rcases List.mem_filterMap.mp hp with ⟨q, hq, hgq⟩
  refine ⟨q, hq, ?_⟩
  by_cases h1 : truthy (dictGet q.2 "Disabled") = true
  · rw [if_pos h1] at hgq
    cases hgq
  · rw [if_neg h1] at hgq
    by_cases h2 : apks.any (fun apk => apk.packageName = q.1) = true
    · rw [if_pos h2] at hgq
      exact ⟨Bool.not_eq_true _ ▸ (by simpa using h1), h2, (Option.some.injEq _ _ ▸ hgq).symm⟩
    · rw [if_neg h2] at hgq
      cases hgq

/-- Helper: a `filterMap` that hits `some (f x)` on every member is a `map`. -/
theorem filterMap_eq_map_of_forall {α β : Type} (g : α → Option β) (f : α → β) :
    ∀ (l : List α), (∀ x ∈ l, g x = some (f x)) → l.filterMap g = l.map f := by
  intro l
  induction l with
  | nil => intro _; rfl
  | cons x rest ih =>
    intro h
    rw [List.filterMap_cons, h x (List.mem_cons_self _ _),
      ih (fun y hy => h y (List.mem_cons_of_mem _ hy)), List.map_cons]

/-- C6 counterexample: an application whose `Disabled` field is the empty
string (falsy but not `None`), with one package build.  It satisfies the
claim's hypothesis — it does not lack package builds — yet `make` keeps it
(truthiness test, line 128) while `make_v0` skips it (`is not None` test,
line 291): the two builders emit different identifier sets. -/
theorem c6_counterexample :
    truthy (dictGet [("id", JValue.str "com.a"), ("Disabled", JValue.str ""),
        ("Description", JValue.str "d")] "Disabled") = false ∧
    v0AppIds (appsWithPackages (fun s => s)
        [("com.a", [("id", JValue.str "com.a"), ("Disabled", JValue.str ""),
          ("Description", JValue.str "d")])]
        [{ apkFive with packageName := "com.a" }])
        [{ apkFive with packageName := "com.a" }] = [] ∧
    v1AppIds (appsWithPackages (fun s => s)
        [("com.a", [("id", JValue.str "com.a"), ("Disabled", JValue.str ""),
          ("Description", JValue.str "d")])]
        [{ apkFive with packageName := "com.a" }]) = ["com.a"] := by
  refine ⟨rfl, ?_, rfl⟩
  rfl

/-- C6 amended: for every catalog in which an application with a falsy
disabled marker has it absent outright (`None`) — ruling out non-`None` falsy
values such as the empty string, which the counterexample shows break the
claim — the legacy and flat builders emit exactly the same application
identifier sequence. -/
theorem c6_amended_same_app_ids (dh : String → String)
    (catalog : List (String × AppDict)) (apks : List Apk)
    (hnone : ∀ p ∈ catalog, truthy (dictGet p.2 "Disabled") = false →
      isNull (dictGet p.2 "Disabled") = true) :
    v0AppIds (appsWithPackages dh catalog apks) apks =
      v1AppIds (appsWithPackages dh catalog apks) := by
  unfold v0AppIds v1AppIds
  apply filterMap_eq_map_of_forall
  intro p hp
  rcases mem_appsWithPackages dh catalog apks p hp with ⟨q, hq, hfalsy, hany, hpq⟩
  have hnull : isNull (dictGet p.2 "Disabled") = true := by
    rw [hpq]
    simp only
    rw [dictGet_dictSet_ne q.2 "Description" "Disabled" _ (by decide)]
    exact hnone q hq hfalsy
  have hfilter : (apks.filter (fun a => a.packageName = p.1)).isEmpty = false := by
    rcases List.any_eq_true.mp hany with ⟨a, ha, hpred⟩
    have : a ∈ apks.filter (fun x => x.packageName = p.1) := by
      rw [List.mem_filter]
      exact ⟨ha, by rw [hpq]; exact hpred⟩
    rcases hx : apks.filter (fun x => x.packageName = p.1) with _ | ⟨y, ys⟩
    · rw [hx] at this
      cases this
    · rw [hx]
      rfl
  unfold eligibleApks
  rw [hnull]
  simp only [Bool.not_true, Bool.false_eq_true, if_false]
  rw [hfilter]
  simp

/-- Helper: once the accumulated `current_version_code` dominates the whole
remaining list, it never changes, and the selected file becomes the last
package name of the remainder exactly when the maximum is still below the
declared current version code. -/
theorem currentVersionFold_bounded (cvc : Int) (l : List Apk) (M : Int) (f : Option String)
    (hM : ∀ x ∈ l, x.versionCode ≤ M) :
    currentVersionFold cvc l (M, f) =
      (M, if M < cvc then
            (match l.getLast? with
             | some z => some z.apkName
             | none => f)
          else f) := by
  induction l generalizing f with
  | nil =>
    by_cases hc : M < cvc <;> simp [currentVersionFold, hc]
  | cons x rest ih =>
    have hx : x.versionCode ≤ M := hM x (List.mem_cons_self _ _)
    have hrest : ∀ y ∈ rest, y.versionCode ≤ M := fun y hy => hM y (List.mem_cons_of_mem _ hy)
    have hcode : (if M < x.versionCode then x.versionCode else M) = M := if_neg (by omega)
    have hstep : currentVersionFold cvc (x :: rest) (M, f) =
        currentVersionFold cvc rest (M, if M < cvc then some x.apkName else f) := by
      simp only [currentVersionFold, hcode]
    rw [hstep, ih _ hrest]
    by_cases hc : M < cvc
    · rcases rest with _ | ⟨y, ys⟩
      · simp [hc]
      · have hz : (y :: ys).getLast? = some ((y :: ys).getLast (by simp)) :=
          List.getLast?_eq_getLast _ _
        simp [hc, List.getLast?_cons_cons, hz]
    · rcases rest with _ | ⟨y, ys⟩
      · simp [hc]
      · simp [hc, List.getLast?_cons_cons]

/-- Helper: on a descending-sorted non-empty package list the selected
current-version file is the lowest-version-code package's name when the
highest version code is still strictly below the declared current version
code, and nothing otherwise. -/
theorem currentVersionFile_sorted (cvc : Int) (x : Apk) (rest : List Apk)
    (hsorted : (x :: rest).Pairwise apkDescOrder) :
    currentVersionFile cvc (x :: rest) =
      if max 0 x.versionCode < cvc then some (((x :: rest).getLastD x).apkName)
      else none := by
  unfold currentVersionFile
  have hcode : (if (0 : Int) < x.versionCode then x.versionCode else 0) = max 0 x.versionCode := by
    rw [max_def]
    split <;> split <;> omega
  have hstep : currentVersionFold cvc (x :: rest) (0, none) =
      currentVersionFold cvc rest
        (max 0 x.versionCode,
         if max 0 x.versionCode < cvc then some x.apkName else none) := by
    simp only [currentVersionFold, hcode]
  have hbound : ∀ y ∈ rest, y.versionCode ≤ max 0 x.versionCode := by
    intro y hy
    have := (List.pairwise_cons.mp hsorted).1 y hy
    unfold apkDescOrder at this
    exact le_trans this (le_max_right _ _)
  rw [hstep, currentVersionFold_bounded cvc rest _ _ hbound]
  by_cases hc : max 0 x.versionCode < cvc
  · rcases rest with _ | ⟨y, ys⟩
    · simp [hc]
    · simp only [hc, if_true]
      rcases hlast : (y :: ys).getLast? with _ | z
      · cases (y :: ys) with
        | nil => cases hlast
        | cons a as => rw [List.getLast?_eq_getLast _ (by simp)] at hlast; cases hlast
      · have h1 : (x :: y :: ys).getLastD x = z := by
          rw [List.getLastD_eq_getLast?, List.getLast?_cons_cons, hlast]
          rfl
        rw [h1]
  · simp [hc]

/-- C1 counterexample: at the spec's own example — application
`com.example.app` with declared current version code 5, one package
`app-5.apk` at version code 5, aliasing enabled, primary repository — the
legacy builder creates no alias at all (the alias list is empty), because the
running-maximum scan selects a file only while the maximum is strictly below
the declared code, never when a package's version code equals it. -/
theorem c1_counterexample :
    (processApp aliasCfg "repo" exampleAppDict [apkFive]).map (fun r => r.2) =
      .ok [] := by
  rfl

/-- C1 amended: the builder selects as "current version" the last package, in
descending version-code order, seen while the running maximum is still
strictly below the declared current version code.  Hence: when the highest
version code reaches or exceeds the declared code — in particular when a
package's version code equals it — no alias is created; when every version
code is below the declared code, the sanitized alias (alias-field text with
unsafe characters stripped plus `.apk`) points at the lowest-version-code
package's file. -/
theorem c1_amended_alias_selection
    (cfg : Config) (app : AppDict) (x : Apk) (rest l : List Apk)
    (hs : sortApksDesc l = x :: rest)
    (hnodup : findDuplicate (x :: rest) = none)
    (hlink : cfg.makeCurrentVersionLink = true)
    (hfiles : cfg.existingFiles = []) :
    (processApp cfg "repo" app l).map (fun r => r.2) =
      .ok (if max 0 x.versionCode < pyInt (jstr (dictGet app "CurrentVersionCode")) then
            [(sanitizeName (jstr (dictGet app cfg.currentVersionNameSource)) ++ ".apk",
              pathJoin "repo" (((x :: rest).getLastD x).apkName))]
           else []) := by
  have hsorted : (x :: rest).Pairwise apkDescOrder := hs ▸ sortApksDesc_pairwise l
  unfold processApp
  rw [hs]
  dsimp only
  rw [hnodup]
  dsimp only [Except.map]
  congr 1
  rw [currentVersionFile_sorted _ _ _ hsorted]
  by_cases hc : max 0 x.versionCode < pyInt (jstr (dictGet app "CurrentVersionCode"))
  · rw [if_pos hc, if_pos hc]
    unfold appAliases
    rw [hlink, hfiles]
    rfl
  · rw [if_neg hc, if_neg hc]
    rfl

/-- Witness for C1 amended: one package at version code 3 with declared
current version code 5 — all codes below the declared one — yields the alias
`ExampleApp.apk` pointing at the lowest-version-code file `repo/app-3.apk`. -/
theorem c1_amended_alias_selection_witness :
    (processApp aliasCfg "repo" exampleAppDict [apkThree]).map (fun r => r.2) =
      .ok [("ExampleApp.apk", "repo/app-3.apk")] := by
  have h := c1_amended_alias_selection aliasCfg exampleAppDict apkThree [] [apkThree]
    rfl rfl rfl rfl
  rw [h]
  rfl

/-- Helper: a duplicate-free scan of a descending-sorted list means the
version codes strictly decrease. -/
theorem findDuplicate_none_strict (l : List Apk)
    (hp : l.Pairwise apkDescOrder) (hf : findDuplicate l = none) :
    l.Pairwise (fun a b => b.versionCode < a.versionCode) := by
  induction l with
  | nil => exact List.Pairwise.nil
  | cons x rest ih =>
    rcases rest with _ | ⟨y, ys⟩
    · simp
    · unfold findDuplicate at hf
      by_cases hxy : x.versionCode = y.versionCode
      · rw [if_pos hxy] at hf; cases hf
      · rw [if_neg hxy] at hf
        have hp' := List.pairwise_cons.mp hp
        have htail := ih hp'.2 hf
        apply List.pairwise_cons.mpr
        refine ⟨?_, htail⟩
        intro z hz
        have hyx : y.versionCode ≤ x.versionCode := hp'.1 y (List.mem_cons_self _ _)
        rcases List.mem_cons.mp hz with rfl | hz'
        · omega
        · have hzy : z.versionCode < y.versionCode :=
            (List.pairwise_cons.mp htail).1 z hz'
          omega

/-- Helper: strictly decreasing version codes are duplicate-free. -/
theorem pairwise_strict_nodup (l : List Apk)
    (h : l.Pairwise (fun a b => b.versionCode < a.versionCode)) :
    (l.map (fun a => a.versionCode)).Nodup := by
  apply List.pairwise_map.mpr
  exact h.imp (fun hab => by omega)

/-- Helper: a sorted list with a repeated version code has an adjacent
duplicate, so the scan reports one. -/
theorem findDuplicate_some_of_dup (l : List Apk)
    (hs : l.Pairwise apkDescOrder)
    (hdup : ¬ (l.map (fun a => a.versionCode)).Nodup) :
    ∃ n1 n2, findDuplicate l = some (n1, n2) := by
  rcases hf : findDuplicate l with _ | ⟨n1, n2⟩
  · exact absurd (pairwise_strict_nodup l (findDuplicate_none_strict l hs hf)) hdup
  · exact ⟨n1, n2, rfl⟩

/-- Helper: a reported duplicate pair really is an adjacent equal-code pair
of the scanned list, named by its file names. -/
theorem findDuplicate_decomp (l : List Apk) (n1 n2 : String)
    (h : findDuplicate l = some (n1, n2)) :
    ∃ l1 a1 a2 l2, l = l1 ++ a1 :: a2 :: l2 ∧ a1.versionCode = a2.versionCode ∧
      a1.apkName = n1 ∧ a2.apkName = n2 := by
  induction l with
  | nil => cases h
  | cons x rest ih =>
    rcases rest with _ | ⟨y, ys⟩
    · cases h
    · unfold findDuplicate at h
      by_cases hxy : x.versionCode = y.versionCode
      · rw [if_pos hxy] at h
        injection h with h'
        refine ⟨[], x, y, ys, rfl, hxy, ?_, ?_⟩
        · exact congrArg Prod.fst h'
        · exact congrArg Prod.snd h'
      · rw [if_neg hxy] at h
        rcases ih h with ⟨l1, a1, a2, l2, heq, hvc, h1, h2⟩
        exact ⟨x :: l1, a1, a2, l2, by rw [List.cons_append, ← heq], hvc, h1, h2⟩

/-- Helper: the package list `eligibleApks` hands over is exactly the
application's filtered package list. -/
theorem eligibleApks_eq (apks : List Apk) (pid : String) (app : AppDict)
    (l : List Apk) (h : eligibleApks apks pid app = some l) :
    l = apks.filter (fun a => a.packageName = pid) := by
  unfold eligibleApks at h
  by_cases h1 : (!isNull (dictGet app "Disabled")) = true
  · rw [if_pos h1] at h
    cases h
  · rw [if_neg h1] at h
    by_cases h2 : (apks.filter (fun a => a.packageName = pid)).isEmpty = true
    · rw [if_pos h2] at h
      cases h
    · rw [if_neg h2] at h
      injection h with h'
      exact h'.symm

/-- Helper: if any eligible application in the loop has a repeated version
code, the application loop aborts with a duplicate-version error naming an
adjacent equal-code pair of some application's sorted package list. -/
theorem processApps_dup (cfg : Config) (repodir : String) (apks : List Apk) :
    ∀ appsL : List (String × AppDict),
      (∃ p ∈ appsL, (eligibleApks apks p.1 p.2).isSome = true ∧
        ¬ ((apks.filter (fun x => x.packageName = p.1)).map
            (fun x => x.versionCode)).Nodup) →
      failsWithConflictingDuplicate apks (processApps cfg repodir apks appsL) := by
  intro appsL
  induction appsL with
  | nil =>
    rintro ⟨p, hp, _⟩
    cases hp
  | cons hd rest ih =>
    rcases hd with ⟨pid, app⟩
    rintro ⟨p, hp, helig, hdup⟩
    rcases he : eligibleApks apks pid app with _ | apklist
    · rcases List.mem_cons.mp hp with rfl | hp'
      · dsimp only at helig
        rw [he] at helig
        cases helig
      · have hskip : processApps cfg repodir apks ((pid, app) :: rest) =
            processApps cfg repodir apks rest := by
          simp only [processApps, he]
        rw [hskip]
        exact ih ⟨p, hp', helig, hdup⟩
    · have hfl : apklist = apks.filter (fun a => a.packageName = pid) :=
        eligibleApks_eq apks pid app apklist he
      rcases hf : findDuplicate (sortApksDesc apklist) with _ | ⟨n1, n2⟩
      · rcases List.mem_cons.mp hp with rfl | hp'
        · exfalso
          dsimp only at hdup
          have hdup' : ¬ ((sortApksDesc apklist).map (fun a => a.versionCode)).Nodup := by
            intro hn
            apply hdup
            have hperm : List.Perm ((sortApksDesc apklist).map (fun a => a.versionCode))
                (apklist.map (fun a => a.versionCode)) :=
              (List.perm_insertionSort _ _).map _
            rw [← hfl]
            exact hperm.nodup_iff.mp hn
          rcases findDuplicate_some_of_dup _ (sortApksDesc_pairwise _) hdup' with ⟨n1, n2, hsome⟩
          rw [hf] at hsome
          cases hsome
        · have hih := ih ⟨p, hp', helig, hdup⟩
          rcases hpa : processApp cfg repodir app apklist with e | pa
          · simp only [processApp, hf] at hpa
            cases hpa
          · rcases hres : processApps cfg repodir apks rest with e | v2
            · have hwhole : processApps cfg repodir apks ((pid, app) :: rest) =
                  .error e := by
                simp only [processApps, he, hpa, hres]
              rw [hwhole]
              rw [hres] at hih
              exact hih
            · rw [hres] at hih
              simp only [failsWithConflictingDuplicate] at hih
      · have hpe : processApp cfg repodir app apklist =
            .error (.duplicateVersions n1 n2) := by
          simp only [processApp, hf]
        have herr : processApps cfg repodir apks ((pid, app) :: rest) =
            .error (.duplicateVersions n1 n2) := by
          simp only [processApps, he, hpe]
        rw [herr]
        rcases findDuplicate_decomp _ n1 n2 hf with ⟨l1, a1, a2, l2, heq, hvc, h1, h2⟩
        exact ⟨pid, l1, a1, a2, l2, by rw [← hfl]; exact heq, hvc, h1, h2⟩

/-- C4: whenever some emitted application's package list contains two builds
with the same version code, `make_v0` aborts with the fatal duplicate-version
error, whose message names two adjacent equal-code package file names of that
run; the `sys.exit(1)` fires inside the loop, before `index.xml` is opened
for writing (and before `make` ever calls `make_v1`), so no index output file
is written — modelled by the run producing an `Except.error` and no
`V0Output`. -/
theorem c4_duplicate_version_codes_abort
    (cfg : Config) (apps : List (String × AppDict)) (apks : List Apk)
    (repodir : String) (rd : RepoDict) (reqs : List String × List String)
    (pid : String) (app : AppDict)
    (hmem : (pid, app) ∈ apps)
    (helig : (eligibleApks apks pid app).isSome = true)
    (hdup : ¬ ((apks.filter (fun x => x.packageName = pid)).map
        (fun x => x.versionCode)).Nodup) :
    failsWithConflictingDuplicate apks (make_v0 cfg apps apks repodir rd reqs) := by
  have h := processApps_dup cfg repodir apks apps ⟨(pid, app), hmem, helig, hdup⟩
  rcases hres : processApps cfg repodir apks apps with e | v
  · rw [hres] at h
    have hm : make_v0 cfg apps apks repodir rd reqs = .error e := by
      unfold make_v0
      rw [hres]
      rfl
    rw [hm]
    rcases e with _ | m | ⟨n1, n2⟩
    · simp only [failsWithConflictingDuplicate] at h
    · simp only [failsWithConflictingDuplicate] at h
    · exact h
  · rw [hres] at h
    simp only [failsWithConflictingDuplicate] at h

/-- Witness for C4 at version codes `{10, 20, 20}`. -/
theorem c4_duplicate_version_codes_abort_witness :
    (eligibleApks dupApks "com.dup" dupAppDict).isSome = true ∧
    ¬ ((dupApks.filter (fun x => x.packageName = "com.dup")).map
        (fun x => x.versionCode)).Nodup ∧
    failsWithConflictingDuplicate dupApks
      (make_v0 aliasCfg [("com.dup", dupAppDict)] dupApks "repo"
        (makeRepoDict aliasCfg false []) ([], [])) := by
  refine ⟨by decide, by decide, ?_⟩
  exact c4_duplicate_version_codes_abort aliasCfg [("com.dup", dupAppDict)] dupApks
    "repo" (makeRepoDict aliasCfg false []) ([], []) "com.dup" dupAppDict
    (List.mem_singleton.mpr rfl) (by decide) (by decide)

/-- Helper: a string that `endswith('/')` decomposes as an initial part plus
the slash. -/
theorem endsWithSlash_decomp (m : String) (h : endsWithSlash m = true) :
    ∃ init, m.data = init ++ ['/'] := by
  unfold endsWithSlash at h
  split at h
  case _ heq =>
    have hne : m.data ≠ [] := by
      intro hnil
      rw [hnil] at heq
      cases heq
    have hdec := List.dropLast_append_getLast hne
    have hlast : m.data.getLast hne = '/' := by
      have h2 := List.getLast?_eq_getLast m.data hne
      rw [h2] at heq
      injection heq
    exact ⟨m.data.dropLast, by rw [← hlast]; exact hdec.symm⟩
  case _ => cases h

/-- Helper: every normalized mirror entry ends with `/` followed by the
repository URL's path basename. -/
theorem mirrorEntry_suffix (ubp m : String) (h : ubp.data ≠ []) :
    ('/' :: ubp.data) <:+ (mirrorEntry ubp m).data := by
  have hne : ubp.data.isEmpty = false := by
    rcases hubp : ubp.data with _ | ⟨c, cs⟩
    · exact absurd hubp h
    · rfl
  unfold mirrorEntry urljoinSeg
  by_cases hs : endsWithSlash m = true
  · rw [if_pos hs, if_neg (by rw [hne]; exact Bool.false_ne_true)]
    rw [str_data_append]
    rcases endsWithSlash_decomp m hs with ⟨init, hinit⟩
    rw [hinit, List.append_assoc]
    exact ⟨init, rfl⟩
  · rw [if_neg hs, if_neg (by rw [hne]; exact Bool.false_ne_true)]
    rw [str_data_append, str_data_append]
    rw [List.append_assoc]
    exact ⟨m.data, rfl⟩

/-- C9: (a) every normalized mirror-list entry produced from a configured
mirror URL ends with `/` followed by the primary repository's path suffix
(the basename of the selected repository URL's path), provided that suffix is
non-empty; (b) any configured mirror whose path's trailing segment is not the
expected root segment `fdroid`, with the non-standard-webroot permission
unset, makes the whole `make` run abort with the batched mirror-check fatal
error — the flag is accumulated over every mirror and checked before the
filtered app dictionary, the request lists or either index document is
built, so nothing is written. -/
theorem c9_mirror_normalization_and_rejection
    (cfg : Config) (catalog : List (String × AppDict)) (apks : List Apk)
    (repodir : String) (archive : Bool) (descHtml : String → String)
    (hubp : (urlbasepath cfg archive).data ≠ []) :
    (∀ m ∈ cfg.mirrors,
      ('/' :: (urlbasepath cfg archive).data) <:+
        (mirrorEntry (urlbasepath cfg archive) m).data) ∧
    (∀ m ∈ cfg.mirrors, mirrorCheckFails cfg m = true →
      make cfg catalog apks repodir archive descHtml = .error .mirrorCheckFailed) := by
  constructor
  · intro m _
    exact mirrorEntry_suffix _ m hubp
  · intro m hm hfail
    have hflag : (mirrorLoop cfg (urlbasepath cfg archive)).1 = true := by
      unfold mirrorLoop
      dsimp only
      rw [List.any_eq_true]
      refine ⟨(mirrorCheckFails cfg m, mirrorEntry (urlbasepath cfg archive) m), ?_, hfail⟩
      apply List.mem_map.mpr
      exact ⟨m, (List.perm_insertionSort _ _).mem_iff.mpr hm, rfl⟩
    unfold make
    dsimp only
    rw [hflag]
    rfl

/-- Witness for C9: the mirror `https://example.org/fdroid/` with repository
path suffix `fdroid` yields an entry ending in `/fdroid`, and the mirror
`https://example.org/other/` under the strict webroot check makes the run
fail before writing anything. -/
theorem c9_mirror_normalization_and_rejection_witness :
    (('/' :: (urlbasepath goodMirrorCfg false).data) <:+
      (mirrorEntry (urlbasepath goodMirrorCfg false) "https://example.org/fdroid/").data) ∧
    make badMirrorCfg [] [] "repo" false (fun s => s) = .error .mirrorCheckFailed :=
  ⟨(c9_mirror_normalization_and_rejection goodMirrorCfg [] [] "repo" false (fun s => s)
      (by decide)).1 "https://example.org/fdroid/" (List.mem_singleton.mpr rfl),
   (c9_mirror_normalization_and_rejection badMirrorCfg [] [] "repo" false (fun s => s)
      (by decide)).2 "https://example.org/other/" (List.mem_singleton.mpr rfl) (by decide)⟩

/-- Witness for C6 amended: a one-app catalog with `Disabled` absent yields
the same identifier list from both builders. -/
theorem c6_amended_same_app_ids_witness :
    v0AppIds (appsWithPackages (fun s => s)
        [("com.a", [("id", JValue.str "com.a"), ("Description", JValue.str "d")])]
        [{ apkFive with packageName := "com.a" }])
        [{ apkFive with packageName := "com.a" }] =
    v1AppIds (appsWithPackages (fun s => s)
        [("com.a", [("id", JValue.str "com.a"), ("Description", JValue.str "d")])]
        [{ apkFive with packageName := "com.a" }]) := by
  apply c6_amended_same_app_ids
  intro p hp _
  rcases List.mem_singleton.mp hp with rfl
  rfl

end FDroidIndex
